import Mathlib

set_option maxRecDepth 40000

/-!
Shallow embedding of `src/bot.py` (a TMDB → Twitter posting bot) and proofs
about its candidate-selection, formatting and publishing logic.

Strings are modelled as `List Char` (Python `str` indexing/slicing is by code
point, which matches). Python floats (`vote_average`, `popularity`) are
modelled as rationals `ℚ`. Dictionary access `d.get(k, default)` on optional
fields is modelled with `Option` plus `getD`.
-/

namespace Bot

/-- Convert a Lean string literal to the `List Char` representation used
throughout the embedding. -/
def str (s : String) : List Char := s.toList

/-- A TMDB result record, with the fields `bot.py` reads. Optional fields are
those the code accesses via `dict.get` with a default; `title` and `id` are
accessed with `movie["title"]` / `movie["id"]` (mandatory). -/
structure MovieResult where
  id : Nat
  title : List Char
  release_date : Option (List Char)
  vote_average : Option ℚ
  vote_count : Option ℕ
  popularity : Option ℚ
  poster_path : Option (List Char)
  overview : Option (List Char)
deriving DecidableEq, Repr

/-- Python truthiness of `r.get("poster_path")`: `None` and `""` are falsy. -/
def posterTruthy (r : MovieResult) : Bool :=
  match r.poster_path with
  | none => false
  | some p => !p.isEmpty

/-- `r.get("vote_count", 0)`. -/
def voteCount (r : MovieResult) : ℕ := r.vote_count.getD 0

/-- `r.get("vote_average", 0.0)`. -/
def voteAverage (r : MovieResult) : ℚ := r.vote_average.getD 0

/-- `r.get("popularity", 0.0)`. -/
def popularity (r : MovieResult) : ℚ := r.popularity.getD 0

/-- The sort key `(r.get("vote_average", 0.0), r.get("popularity", 0.0))`
from `pick_best_result`. -/
def rkey (r : MovieResult) : ℚ × ℚ := (voteAverage r, popularity r)

/-- Strict lexicographic order on sort keys: Python tuple `<`. -/
def keyLt (a b : ℚ × ℚ) : Prop := a.1 < b.1 ∨ (a.1 = b.1 ∧ a.2 < b.2)

/-- Non-strict lexicographic order on sort keys: Python tuple `<=`. -/
def keyLe (a b : ℚ × ℚ) : Prop := a.1 < b.1 ∨ (a.1 = b.1 ∧ a.2 ≤ b.2)

instance (a b : ℚ × ℚ) : Decidable (keyLt a b) := by
  unfold keyLt; infer_instance

instance (a b : ℚ × ℚ) : Decidable (keyLe a b) := by
  unfold keyLe; infer_instance

/-- `filtered.sort(key=..., reverse=True)` followed by `filtered[0]` returns
the first list element whose key is maximal (Python's sort is stable and
`reverse=True` preserves the relative order of key-equal elements). This
helper scans the list keeping the current best, replacing it only on a
strictly greater key, which yields exactly that element. -/
def bestOfAux (best : MovieResult) : List MovieResult → MovieResult
  | [] => best
  | r :: rest =>
      if keyLt (rkey best) (rkey r) then bestOfAux r rest else bestOfAux best rest

/-- `sorted-descending head` of a candidate list: `none` on the empty list. -/
def bestOf : List MovieResult → Option MovieResult
  | [] => none
  | r :: rest => some (bestOfAux r rest)

/-- The staged filter of `pick_best_result` (bot.py lines 50-55): poster and
vote threshold first, then poster only, then the raw list. -/
def surviving (results : List MovieResult) (min_vote_count : ℕ) : List MovieResult :=
  let filtered := results.filter (fun r => posterTruthy r && voteCount r ≥ min_vote_count)
  if filtered.isEmpty then
    let withPoster := results.filter posterTruthy
    if withPoster.isEmpty then results else withPoster
  else filtered

/-- `pick_best_result(results, min_vote_count)` (bot.py lines 46-60):
staged filtering, then stable descending sort on
`(vote_average, popularity)` and take the head; `None` when nothing
survives (which happens only when `results` is empty). -/
def pick_best_result (results : List MovieResult) (min_vote_count : ℕ) : Option MovieResult :=
  bestOf (surviving results min_vote_count)

/-- The part of a string before its last space, or the whole string when it
has no space: Python `s.rsplit(" ", 1)[0]`. -/
def rsplitBeforeLastSpace (s : List Char) : List Char :=
  match s.reverse.dropWhile (fun c => c ≠ ' ') with
  | [] => s
  | _ :: rest => rest.reverse

/-- `shorten(text, max_len)` (bot.py lines 63-68): empty text renders empty;
text within the budget is returned unchanged; otherwise keep the first
`max_len - 1` characters, cut back to before the last space (if any), and
append one ellipsis character. -/
def shorten (text : List Char) (max_len : ℕ) : List Char :=
  if text.isEmpty then []
  else if text.length ≤ max_len then text
  else rsplitBeforeLastSpace (text.take (max_len - 1)) ++ ['…']

/-- The truncation step of `tweet(text)` (bot.py lines 84-88): messages over
270 characters are cut to 267 characters plus `"..."`. -/
def tweet_truncate (text : List Char) : List Char :=
  let max_len := 270
  if text.length > max_len then text.take (max_len - 3) ++ str "..." else text

lemma keyLe_of_not_keyLt {a b : ℚ × ℚ} (h : ¬ keyLt a b) : keyLe b a := by
  unfold keyLt at h
  unfold keyLe
  push_neg at h
  rcases lt_or_eq_of_le h.1 with h1 | h1
  · exact Or.inl h1
  · exact Or.inr ⟨h1, h.2 h1.symm⟩

lemma keyLt_trans {a b c : ℚ × ℚ} (h1 : keyLt a b) (h2 : keyLt b c) : keyLt a c := by
  unfold keyLt at *
  rcases h1 with h1 | ⟨e1, p1⟩ <;> rcases h2 with h2 | ⟨e2, p2⟩
  · exact Or.inl (lt_trans h1 h2)
  · exact Or.inl (by rw [← e2]; exact h1)
  · exact Or.inl (by rw [e1]; exact h2)
  · exact Or.inr ⟨e1.trans e2, lt_trans p1 p2⟩

lemma keyLt_of_keyLe_of_keyLt {a b c : ℚ × ℚ} (h1 : keyLe a b) (h2 : keyLt b c) : keyLt a c := by
  unfold keyLe at h1
  unfold keyLt at *
  rcases h1 with h1 | ⟨e1, p1⟩ <;> rcases h2 with h2 | ⟨e2, p2⟩
  · exact Or.inl (lt_trans h1 h2)
  · exact Or.inl (by rw [← e2]; exact h1)
  · exact Or.inl (by rw [e1]; exact h2)
  · exact Or.inr ⟨e1.trans e2, lt_of_le_of_lt p1 p2⟩

lemma keyLe_of_keyLt {a b : ℚ × ℚ} (h : keyLt a b) : keyLe a b := by
  unfold keyLt at h
  unfold keyLe
  rcases h with h | ⟨e, p⟩
  · exact Or.inl h
  · exact Or.inr ⟨e, le_of_lt p⟩

lemma va_le_of_keyLe {a b : MovieResult} (h : keyLe (rkey a) (rkey b)) :
    voteAverage a ≤ voteAverage b := by
  unfold keyLe at h
  rcases h with h | ⟨e, _⟩
  · exact le_of_lt h
  · exact le_of_eq e

/-- Full characterisation of the best-so-far scan: either the seed survives
and dominates the whole list, or the result sits in the list strictly beating
the seed and everything before it, and dominating everything after it. -/
lemma bestOfAux_spec : ∀ (l : List MovieResult) (a : MovieResult),
    (bestOfAux a l = a ∧ ∀ x ∈ l, keyLe (rkey x) (rkey a)) ∨
    (∃ l1 l2, l = l1 ++ bestOfAux a l :: l2 ∧
      keyLt (rkey a) (rkey (bestOfAux a l)) ∧
      (∀ x ∈ l1, keyLt (rkey x) (rkey (bestOfAux a l))) ∧
      (∀ x ∈ l2, keyLe (rkey x) (rkey (bestOfAux a l)))) := by
  intro l
  induction l with
  | nil =>
      intro a
      exact Or.inl ⟨rfl, by intro x hx; cases hx⟩
  | cons r rest ih =>
      intro a
      by_cases h : keyLt (rkey a) (rkey r)
      · have hdef : bestOfAux a (r :: rest) = bestOfAux r rest := by
          simp only [bestOfAux]; rw [if_pos h]
        rcases ih r with ⟨heq, hall⟩ | ⟨l1, l2, hsplit, hlt, hl1, hl2⟩
        · refine Or.inr ⟨[], rest, ?_, ?_, ?_, ?_⟩
          · rw [hdef, heq]; rfl
          · rw [hdef, heq]; exact h
          · intro x hx; cases hx
          · intro x hx; rw [hdef, heq]; exact hall x hx
        · refine Or.inr ⟨r :: l1, l2, ?_, ?_, ?_, ?_⟩
          · rw [hdef, List.cons_append, ← hsplit]
          · rw [hdef]; exact keyLt_trans h hlt
          · intro x hx
            rcases List.mem_cons.mp hx with hx | hx
            · rw [hdef, hx]; exact hlt
            · rw [hdef]; exact hl1 x hx
          · intro x hx; rw [hdef]; exact hl2 x hx
      · have hdef : bestOfAux a (r :: rest) = bestOfAux a rest := by
          simp only [bestOfAux]; rw [if_neg h]
        have hra : keyLe (rkey r) (rkey a) := keyLe_of_not_keyLt h
        rcases ih a with ⟨heq, hall⟩ | ⟨l1, l2, hsplit, hlt, hl1, hl2⟩
        · refine Or.inl ⟨by rw [hdef, heq], ?_⟩
          intro x hx
          rcases List.mem_cons.mp hx with hx | hx
          · rw [hx]; exact hra
          · exact hall x hx
        · refine Or.inr ⟨r :: l1, l2, ?_, ?_, ?_, ?_⟩
          · rw [hdef, List.cons_append, ← hsplit]
          · rw [hdef]; exact hlt
          · intro x hx
            rcases List.mem_cons.mp hx with hx | hx
            · rw [hdef, hx]; exact keyLt_of_keyLe_of_keyLt hra hlt
            · rw [hdef]; exact hl1 x hx
          · intro x hx; rw [hdef]; exact hl2 x hx

lemma bestOf_eq_none_iff (l : List MovieResult) : bestOf l = none ↔ l = [] := by
  cases l with
  | nil => simp [bestOf]
  | cons r rest => simp [bestOf]

lemma bestOf_split {l : List MovieResult} {b : MovieResult} (h : bestOf l = some b) :
    ∃ l1 l2, l = l1 ++ b :: l2 ∧ ∀ x ∈ l1, keyLt (rkey x) (rkey b) := by
  cases l with
  | nil => cases h
  | cons r rest =>
      have hb : bestOfAux r rest = b := by
        simpa [bestOf] using h
      rcases bestOfAux_spec rest r with ⟨heq, _⟩ | ⟨l1, l2, hsplit, hlt, hl1, _⟩
      · refine ⟨[], rest, ?_, ?_⟩
        · rw [← hb, heq]; rfl
        · intro x hx; cases hx
      · rw [hb] at hsplit hlt hl1
        refine ⟨r :: l1, l2, ?_, ?_⟩
        · rw [List.cons_append, ← hsplit]
        · intro x hx
          rcases List.mem_cons.mp hx with hx | hx
          · rw [hx]; exact hlt
          · exact hl1 x hx

lemma bestOf_max {l : List MovieResult} {b : MovieResult} (h : bestOf l = some b) :
    ∀ x ∈ l, keyLe (rkey x) (rkey b) := by
  cases l with
  | nil => cases h
  | cons r rest =>
      have hb : bestOfAux r rest = b := by
        simpa [bestOf] using h
      intro x hx
      rcases bestOfAux_spec rest r with ⟨heq, hall⟩ | ⟨l1, l2, hsplit, hlt, hl1, hl2⟩
      · rw [← hb, heq]
        rcases List.mem_cons.mp hx with hx | hx
        · rw [hx]
          exact Or.inr ⟨rfl, le_refl _⟩
        · exact hall x hx
      · rw [← hb]
        rcases List.mem_cons.mp hx with hx | hx
        · rw [hx]; exact keyLe_of_keyLt hlt
        · rw [hsplit] at hx
          rcases List.mem_append.mp hx with hx | hx
          · exact keyLe_of_keyLt (hl1 x hx)
          · rcases List.mem_cons.mp hx with hx | hx
            · rw [hx]
              exact Or.inr ⟨rfl, le_refl _⟩
            · exact hl2 x hx

lemma bestOf_mem {l : List MovieResult} {b : MovieResult} (h : bestOf l = some b) :
    b ∈ l := by
  rcases bestOf_split h with ⟨l1, l2, hsplit, _⟩
  rw [hsplit]
  exact List.mem_append.mpr (Or.inr (List.mem_cons_self _ _))

lemma dropWhile_head_false (p : Char → Bool) :
    ∀ (l : List Char) (c : Char) (rest : List Char),
      l.dropWhile p = c :: rest → p c = false := by
  intro l
  induction l with
  | nil => intro c rest h; cases h
  | cons x xs ih =>
      intro c rest h
      rw [List.dropWhile_cons] at h
      by_cases hx : p x
      · rw [if_pos hx] at h
        exact ih c rest h
      · rw [if_neg hx] at h
        injection h with h1 _
        rw [← h1]
        simpa using hx

lemma rsplit_length_le (s : List Char) :
    (rsplitBeforeLastSpace s).length ≤ s.length := by
  unfold rsplitBeforeLastSpace
  cases hd : s.reverse.dropWhile (fun c => c ≠ ' ') with
  | nil => exact le_refl _
  | cons c rest =>
      have h1 : (c :: rest).length ≤ s.reverse.length := by
        rw [← hd]
        exact (List.dropWhile_suffix _).sublist.length_le
      rw [List.length_reverse] at h1
      simp only [List.length_cons] at h1
      rw [List.length_reverse]
      omega

lemma rsplit_no_space {s : List Char} (h : ' ' ∉ s) :
    rsplitBeforeLastSpace s = s := by
  have hd : s.reverse.dropWhile (fun c => c ≠ ' ') = [] := by
    rw [List.dropWhile_eq_nil_iff]
    intro x hx
    have hxs : x ∈ s := List.mem_reverse.mp hx
    simp only [ne_eq, decide_eq_true_eq]
    intro heq
    exact h (heq ▸ hxs)
  unfold rsplitBeforeLastSpace
  rw [hd]

lemma rsplit_space {s : List Char} (h : ' ' ∈ s) :
    ∃ w1 w2, s = w1 ++ ' ' :: w2 ∧ ' ' ∉ w2 ∧ rsplitBeforeLastSpace s = w1 := by
  have hne : s.reverse.dropWhile (fun c => c ≠ ' ') ≠ [] := by
    simp only [ne_eq, List.dropWhile_eq_nil_iff]
    push_neg
    exact ⟨' ', List.mem_reverse.mpr h, by simp⟩
  obtain ⟨c, rest, hd⟩ : ∃ c rest, s.reverse.dropWhile (fun c => c ≠ ' ') = c :: rest := by
    cases hcase : s.reverse.dropWhile (fun c => c ≠ ' ') with
    | nil => exact absurd hcase hne
    | cons c rest => exact ⟨c, rest, rfl⟩
  have hc : c = ' ' := by
    have := dropWhile_head_false _ _ c rest hd
    simpa using this
  have hsplit : s.reverse = s.reverse.takeWhile (fun c => c ≠ ' ') ++ (c :: rest) := by
    conv_lhs => rw [← List.takeWhile_append_dropWhile (fun c => decide (c ≠ ' ')) s.reverse]
    rw [hd]
  refine ⟨rest.reverse, (s.reverse.takeWhile (fun c => c ≠ ' ')).reverse, ?_, ?_, ?_⟩
  · have h1 := congrArg List.reverse hsplit
    rw [List.reverse_reverse, List.reverse_append, List.reverse_cons, hc,
      List.append_assoc, List.singleton_append] at h1
    exact h1
  · intro hx
    have hx2 : ' ' ∈ s.reverse.takeWhile (fun c => c ≠ ' ') := List.mem_reverse.mp hx
    have := List.mem_takeWhile_imp hx2
    simp at this
  · unfold rsplitBeforeLastSpace
    rw [hd]

lemma shorten_of_long {text : List Char} {b : ℕ} (hb : 1 ≤ b) (h : b < text.length) :
    shorten text b = rsplitBeforeLastSpace (text.take (b - 1)) ++ ['…'] := by
  have hne : text.isEmpty = false := by
    cases text with
    | nil => simp at h
    | cons c cs => rfl
  unfold shorten
  rw [hne]
  simp only [Bool.false_eq_true, if_false]
  rw [if_neg (by omega)]

end Bot

namespace Bot

/-- C1: for every input string, the `tweet` truncation step leaves messages
of length at most 270 unchanged, and cuts longer messages to exactly 270
characters ending in the three-character marker `"..."`. -/
theorem claim_C1 (text : List Char) :
    (270 < text.length →
      (tweet_truncate text).length = 270 ∧ ∃ p, tweet_truncate text = p ++ str "...") ∧
    (text.length ≤ 270 → tweet_truncate text = text) := by
  have hdef : tweet_truncate text =
      if text.length > 270 then text.take 267 ++ str "..." else text := rfl
  constructor
  · intro h
    rw [hdef, if_pos (by omega)]
    refine ⟨?_, text.take 267, rfl⟩
    rw [List.length_append, List.length_take]
    have h3 : (str "...").length = 3 := rfl
    omega
  · intro h
    rw [hdef, if_neg (by omega)]

theorem claim_C1_witness :
    (tweet_truncate (List.replicate 271 'x')).length = 270 ∧
    tweet_truncate (str "ok") = str "ok" :=
  ⟨((claim_C1 (List.replicate 271 'x')).1 (by decide)).1,
    (claim_C1 (str "ok")).2 (by decide)⟩

/-- C2 counterexample: a 181-character input consisting of one single word
(no whitespace anywhere) and budget 180 is truncated by `shorten` to a hard
179-character cut plus the ellipsis, splitting the word: the claim that the
output "never splits a word" with "the cut point at the last whitespace
boundary strictly before the budget" fails, since there is no whitespace yet
the output is a strict mid-word cut of the input. -/
theorem claim_C2_counterexample :
    180 < (List.replicate 181 'a').length ∧
    ' ' ∉ List.replicate 181 'a' ∧
    shorten (List.replicate 181 'a') 180 = List.replicate 179 'a' ++ ['…'] := by
  decide

/-- C2 (amended): for budgets in 150–180, `shorten` returns short inputs
unchanged and renders empty input as the empty string; on longer inputs the
output never exceeds the budget, and when the first budget−1 characters
contain a space the cut is at the last such space (no word is split), with a
single ellipsis character appended; when they contain no space the output is
a hard cut of the first budget−1 characters plus the ellipsis. -/
theorem claim_C2_amended (text : List Char) (b : ℕ) (hb : 150 ≤ b) (hb2 : b ≤ 180) :
    (text.length ≤ b → shorten text b = text) ∧
    (text = [] → shorten text b = []) ∧
    (b < text.length →
      (shorten text b).length ≤ b ∧
      (' ' ∈ text.take (b - 1) →
        ∃ w1 w2, text.take (b - 1) = w1 ++ ' ' :: w2 ∧ ' ' ∉ w2 ∧
          shorten text b = w1 ++ ['…']) ∧
      (' ' ∉ text.take (b - 1) →
        shorten text b = text.take (b - 1) ++ ['…'])) := by
  refine ⟨?_, ?_, ?_⟩
  · intro h
    cases text with
    | nil => rfl
    | cons c cs =>
        unfold shorten
        simp only [List.isEmpty_cons, Bool.false_eq_true, if_false]
        rw [if_pos h]
  · intro h
    rw [h]
    rfl
  · intro hlong
    have hdef := shorten_of_long (by omega) hlong
    refine ⟨?_, ?_, ?_⟩
    · rw [hdef, List.length_append]
      have h1 : (text.take (b - 1)).length = b - 1 := by
        rw [List.length_take]
        omega
      have h2 := rsplit_length_le (text.take (b - 1))
      simp only [List.length_cons, List.length_nil]
      omega
    · intro hsp
      obtain ⟨w1, w2, hsplit, hnotin, heq⟩ := rsplit_space hsp
      exact ⟨w1, w2, hsplit, hnotin, by rw [hdef, heq]⟩
    · intro hsp
      rw [hdef, rsplit_no_space hsp]

theorem claim_C2_amended_witness :
    shorten (str "hello") 180 = str "hello" ∧
    (shorten (List.replicate 200 'a') 180).length ≤ 180 :=
  ⟨(claim_C2_amended (str "hello") 180 (by decide) (by decide)).1 (by decide),
    ((claim_C2_amended (List.replicate 200 'a') 180 (by decide) (by decide)).2.2
      (by decide)).1⟩

/-- The first-stage filter of `pick_best_result`: non-empty poster reference
and vote count at or above the threshold. -/
def stage1 (mv : ℕ) (r : MovieResult) : Bool :=
  posterTruthy r && voteCount r ≥ mv

lemma surviving_def (results : List MovieResult) (mv : ℕ) :
    surviving results mv =
      if (results.filter (stage1 mv)).isEmpty then
        if (results.filter posterTruthy).isEmpty then results
        else results.filter posterTruthy
      else results.filter (stage1 mv) := rfl

lemma surviving_cases (results : List MovieResult) (mv : ℕ) :
    (results.filter (stage1 mv) ≠ [] ∧
      surviving results mv = results.filter (stage1 mv)) ∨
    (results.filter (stage1 mv) = [] ∧ results.filter posterTruthy ≠ [] ∧
      surviving results mv = results.filter posterTruthy) ∨
    (results.filter (stage1 mv) = [] ∧ results.filter posterTruthy = [] ∧
      surviving results mv = results) := by
  rw [surviving_def]
  by_cases h1 : results.filter (stage1 mv) = []
  · by_cases h2 : results.filter posterTruthy = []
    · refine Or.inr (Or.inr ⟨h1, h2, ?_⟩)
      rw [if_pos (List.isEmpty_iff.mpr h1), if_pos (List.isEmpty_iff.mpr h2)]
    · refine Or.inr (Or.inl ⟨h1, h2, ?_⟩)
      rw [if_pos (List.isEmpty_iff.mpr h1),
        if_neg (fun hc => h2 (List.isEmpty_iff.mp hc))]
  · refine Or.inl ⟨h1, ?_⟩
    rw [if_neg (fun hc => h1 (List.isEmpty_iff.mp hc))]

lemma surviving_subset (results : List MovieResult) (mv : ℕ) :
    ∀ x ∈ surviving results mv, x ∈ results := by
  rcases surviving_cases results mv with ⟨_, h⟩ | ⟨_, _, h⟩ | ⟨_, _, h⟩ <;> rw [h]
  · intro x hx; exact List.mem_of_mem_filter hx
  · intro x hx; exact List.mem_of_mem_filter hx
  · intro x hx; exact hx

lemma surviving_eq_nil_iff (results : List MovieResult) (mv : ℕ) :
    surviving results mv = [] ↔ results = [] := by
  constructor
  · intro h
    rcases surviving_cases results mv with ⟨hne, he⟩ | ⟨_, hne, he⟩ | ⟨_, _, he⟩
    · exact absurd (he ▸ h) hne
    · exact absurd (he ▸ h) hne
    · exact he ▸ h
  · intro h
    subst h
    rfl

lemma pick_none_iff (results : List MovieResult) (mv : ℕ) :
    pick_best_result results mv = none ↔ results = [] := by
  unfold pick_best_result
  rw [bestOf_eq_none_iff]
  exact surviving_eq_nil_iff results mv

lemma pick_mem {results : List MovieResult} {mv : ℕ} {b : MovieResult}
    (h : pick_best_result results mv = some b) : b ∈ results :=
  surviving_subset results mv b (bestOf_mem h)

/-- C3: `pick_best_result` selects from the first non-empty stage of the
chain (poster and vote threshold, then poster only, then the raw list),
returns `none` exactly when the candidate list is empty, and never selects a
posterless item when a poster-bearing, threshold-meeting item exists. -/
theorem claim_C3 (results : List MovieResult) (mv : ℕ) :
    (pick_best_result results mv = none ↔ results = []) ∧
    (∀ b, pick_best_result results mv = some b →
      (results.filter (stage1 mv) ≠ [] → b ∈ results.filter (stage1 mv)) ∧
      (results.filter (stage1 mv) = [] → results.filter posterTruthy ≠ [] →
        b ∈ results.filter posterTruthy) ∧
      (results.filter (stage1 mv) = [] → results.filter posterTruthy = [] →
        b ∈ results) ∧
      ((∃ x ∈ results, stage1 mv x) → posterTruthy b = true)) := by
  refine ⟨pick_none_iff results mv, ?_⟩
  intro b hb
  have hmem : b ∈ surviving results mv := bestOf_mem hb
  rcases surviving_cases results mv with ⟨hne, he⟩ | ⟨hnil, hne, he⟩ | ⟨hnil, hnil2, he⟩
  · rw [he] at hmem
    refine ⟨fun _ => hmem, fun hc => absurd hc hne, fun hc => absurd hc hne, fun _ => ?_⟩
    have h2 := (List.mem_filter.mp hmem).2
    unfold stage1 at h2
    exact (Bool.and_eq_true_iff.mp h2).1
  · rw [he] at hmem
    refine ⟨fun hc => absurd hnil hc, fun _ _ => hmem, fun _ hc => absurd hc hne,
      fun hex => ?_⟩
    obtain ⟨x, hx, hsx⟩ := hex
    exact absurd hnil (by
      intro hcontra
      have : x ∈ results.filter (stage1 mv) := List.mem_filter.mpr ⟨hx, hsx⟩
      rw [hcontra] at this
      cases this)
  · rw [he] at hmem
    refine ⟨fun hc => absurd hnil hc, fun _ hc => absurd hnil2 hc, fun _ _ => hmem,
      fun hex => ?_⟩
    obtain ⟨x, hx, hsx⟩ := hex
    exact absurd hnil (by
      intro hcontra
      have : x ∈ results.filter (stage1 mv) := List.mem_filter.mpr ⟨hx, hsx⟩
      rw [hcontra] at this
      cases this)

/-- A threshold-meeting candidate with a poster. -/
def movieGood : MovieResult :=
  ⟨10, str "Good", some (str "2020-05-01"), some 8, some 120, some 4,
    some (str "/good.jpg"), some (str "fine film")⟩

/-- A candidate with no poster reference. -/
def movieNoPoster : MovieResult :=
  ⟨11, str "Bare", some (str "2021-06-01"), some 9, some 500, some 9,
    none, some (str "no poster")⟩

/-- A poster-bearing candidate with a lower rating than `movieGood`. -/
def movieWeak : MovieResult :=
  ⟨12, str "Weak", some (str "2019-01-01"), some 6, some 80, some 99,
    some (str "/weak.jpg"), some (str "weak film")⟩

theorem claim_C3_witness :
    pick_best_result [movieNoPoster, movieWeak, movieGood] 50 = some movieGood ∧
    posterTruthy movieGood = true := by
  have h := (claim_C3 [movieNoPoster, movieWeak, movieGood] 50).2
  constructor
  · decide
  · exact (h movieGood (by decide)).2.2.2 ⟨movieGood, by decide, by decide⟩

/-- C4: the selection from the surviving set maximises
(average-rating, popularity) lexicographically: no surviving item with a
strictly greater average-rating than the selected one exists, and every item
placed before the selected one in the surviving list has a strictly smaller
key, so among key-equal items the earliest is selected. -/
theorem claim_C4 (results : List MovieResult) (mv : ℕ) (b : MovieResult)
    (hsel : pick_best_result results mv = some b) :
    (∀ a ∈ surviving results mv, voteAverage b < voteAverage a → False) ∧
    (∃ l1 l2, surviving results mv = l1 ++ b :: l2 ∧
      ∀ x ∈ l1, keyLt (rkey x) (rkey b)) := by
  have hsel2 : bestOf (surviving results mv) = some b := hsel
  constructor
  · intro a ha hlt
    exact absurd hlt (not_lt.mpr (va_le_of_keyLe (bestOf_max hsel2 a ha)))
  · exact bestOf_split hsel2

theorem claim_C4_witness :
    ∃ l1 l2, surviving [movieWeak, movieGood] 50 = l1 ++ movieGood :: l2 ∧
      ∀ x ∈ l1, keyLt (rkey x) (rkey movieGood) :=
  (claim_C4 [movieWeak, movieGood] 50 movieGood (by decide)).2

/-- C10 (implicit): `pick_best_result` is a total function (missing fields are
read with absent/zero defaults), returns `none` exactly on the empty list, and
on a non-empty list returns a member of that list. -/
theorem claim_C10 (results : List MovieResult) (mv : ℕ) :
    (pick_best_result results mv = none ↔ results = []) ∧
    (∀ b, pick_best_result results mv = some b → b ∈ results) :=
  ⟨pick_none_iff results mv, fun _ hb => pick_mem hb⟩

theorem claim_C10_witness :
    pick_best_result ([] : List MovieResult) 50 = none ∧
    movieNoPoster ∈ [movieNoPoster] :=
  ⟨(claim_C10 [] 50).1.mpr rfl,
    (claim_C10 [movieNoPoster] 50).2 movieNoPoster (by decide)⟩

/-- `min(first.get("total_pages", 1), cap)` from the randomized-quality modes
(bot.py lines 264, 458, 518; `cap` is 50 for modes 5 and 16, 30 for mode 17). -/
def total_pages_clamped (tp : Option ℕ) (cap : ℕ) : ℕ := min (tp.getD 1) cap

/-- Lower bound passed to `random.randint` on lines 265, 459, 519. -/
def random_page_lo : ℕ := 1

/-- Upper bound `max(total_pages, 1)` passed to `random.randint`. -/
def random_page_hi (tp : Option ℕ) (cap : ℕ) : ℕ :=
  max (total_pages_clamped tp cap) 1

/-- `random.randint(a, b)` draws an integer `k` with `a ≤ k ≤ b` (it requires
`a ≤ b`); this predicate states that `k` is a possible draw. -/
def randint_result (a b k : ℕ) : Prop := a ≤ k ∧ k ≤ b

instance (a b k : ℕ) : Decidable (randint_result a b k) := by
  unfold randint_result; infer_instance

/-- C5: in the randomized-quality modes, for every reported total-page count
(including 0 and absent) and every cap, the `randint` bounds satisfy
lower ≤ upper, every possible draw lies in `[1, max(min(total, cap), 1)]`,
and a total-page count of 0 forces the drawn page to be exactly 1. -/
theorem claim_C5 (tp : Option ℕ) (cap : ℕ) (k : ℕ) :
    random_page_lo ≤ random_page_hi tp cap ∧
    (randint_result random_page_lo (random_page_hi tp cap) k →
      1 ≤ k ∧ k ≤ max (min (tp.getD 1) cap) 1) ∧
    (tp = some 0 → randint_result random_page_lo (random_page_hi tp cap) k →
      k = 1) := by
  refine ⟨?_, ?_, ?_⟩
  · exact le_max_right _ _
  · intro h
    exact ⟨h.1, h.2⟩
  · intro h0 h
    subst h0
    have h2 := h.2
    simp only [random_page_hi, total_pages_clamped, Option.getD_some] at h2
    have h1 := h.1
    simp only [random_page_lo] at h1
    omega

theorem claim_C5_witness : randint_result random_page_lo (random_page_hi (some 0) 50) 1 ∧ (1 : ℕ) = 1 :=
  ⟨by decide, (claim_C5 (some 0) 50 1).2.2 rfl (by decide)⟩

/-- Python truthiness of an environment variable read with
`os.environ.get`: unset (`None`) and the empty string are falsy. -/
def truthy : Option (List Char) → Bool
  | none => false
  | some s => !s.isEmpty

/-- The environment variables `bot.py` reads at import time. -/
structure EnvConfig where
  tmdb_api_key : Option (List Char)
  x_bearer_token : Option (List Char)
  x_api_key : Option (List Char)
  x_api_secret : Option (List Char)
  x_access_token : Option (List Char)
  x_access_secret : Option (List Char)
deriving DecidableEq, Repr

/-- The five publishing-platform credential names, in the order
`ensure_env` appends them. -/
def xCredNames : List (List Char) :=
  [str "X_BEARER_TOKEN", str "X_API_KEY", str "X_API_SECRET",
    str "X_ACCESS_TOKEN", str "X_ACCESS_SECRET"]

/-- The `missing` list built by `ensure_env` (bot.py lines 25-31): the TMDB
key name if that key is falsy, then all five X credential names if any of
the five is falsy. -/
def missing_vars (env : EnvConfig) : List (List Char) :=
  (if truthy env.tmdb_api_key then [] else [str "TMDB_API_KEY"]) ++
  (if truthy env.x_bearer_token && truthy env.x_api_key && truthy env.x_api_secret &&
      truthy env.x_access_token && truthy env.x_access_secret
    then [] else xCredNames)

/-- `ensure_env()` (bot.py lines 24-33): raises a `RuntimeError` whose
message joins the `missing` list when it is non-empty, otherwise returns
normally. The error payload here is that list of names. -/
def ensure_env (env : EnvConfig) : Except (List (List Char)) Unit :=
  if missing_vars env = [] then Except.ok () else Except.error (missing_vars env)

/-- The required credentials that are actually absent (falsy) in the
environment, by name — the claim's notion of "every missing value". -/
def absent_required (env : EnvConfig) : List (List Char) :=
  (if truthy env.tmdb_api_key then [] else [str "TMDB_API_KEY"]) ++
  (if truthy env.x_bearer_token then [] else [str "X_BEARER_TOKEN"]) ++
  (if truthy env.x_api_key then [] else [str "X_API_KEY"]) ++
  (if truthy env.x_api_secret then [] else [str "X_API_SECRET"]) ++
  (if truthy env.x_access_token then [] else [str "X_ACCESS_TOKEN"]) ++
  (if truthy env.x_access_secret then [] else [str "X_ACCESS_SECRET"])

/-- The keys of the `MODES` dispatch table (bot.py lines 544-557). -/
def mode_keys : List (List Char) :=
  [str "1", str "2", str "3", str "4", str "5", str "8", str "10",
    str "13", str "14", str "15", str "16", str "17"]

/-- How `main()` can proceed (bot.py lines 560-571). Only the `dispatch`
outcome ever runs a mode function, and with it the first network call. -/
inductive RunStart where
  | configError (missing : List (List Char))
  | usageError
  | unknownMode (key : List Char)
  | dispatch (key : List Char)
deriving DecidableEq, Repr

/-- `main()` up to mode dispatch: `ensure_env()` runs first, then the
`sys.argv` length check, then the `MODES` lookup. `argv` models `sys.argv`
(program name first). -/
def main_start (env : EnvConfig) (argv : List (List Char)) : RunStart :=
  match ensure_env env with
  | Except.error m => RunStart.configError m
  | Except.ok _ =>
      if argv.length < 2 then RunStart.usageError
      else
        let mode_key := argv.getD 1 []
        if mode_key ∈ mode_keys then RunStart.dispatch mode_key
        else RunStart.unknownMode mode_key

lemma mem_if_singleton {n name : List Char} {b : Bool}
    (hn : n ∈ (if b then ([] : List (List Char)) else [name])) :
    b = false ∧ n = name := by
  cases b
  · simp only [Bool.false_eq_true, if_false, List.mem_singleton] at hn
    exact ⟨rfl, hn⟩
  · simp at hn

lemma if_nil_true {name : List Char} {b : Bool}
    (h : (if b then ([] : List (List Char)) else [name]) = []) : b = true := by
  cases b
  · simp at h
  · rfl

lemma mem_missing_of_absent (env : EnvConfig) :
    ∀ n ∈ absent_required env, n ∈ missing_vars env := by
  intro n hn
  simp only [absent_required, List.mem_append] at hn
  unfold missing_vars
  rcases hn with ((((hn | hn) | hn) | hn) | hn) | hn
  · obtain ⟨hb, hm⟩ := mem_if_singleton hn
    rw [hb]
    subst hm
    simp
  · obtain ⟨hb, hm⟩ := mem_if_singleton hn
    rw [show (truthy env.x_bearer_token && truthy env.x_api_key &&
      truthy env.x_api_secret && truthy env.x_access_token &&
      truthy env.x_access_secret) = false by simp [hb]]
    subst hm
    simp [xCredNames]
  · obtain ⟨hb, hm⟩ := mem_if_singleton hn
    rw [show (truthy env.x_bearer_token && truthy env.x_api_key &&
      truthy env.x_api_secret && truthy env.x_access_token &&
      truthy env.x_access_secret) = false by simp [hb]]
    subst hm
    simp [xCredNames]
  · obtain ⟨hb, hm⟩ := mem_if_singleton hn
    rw [show (truthy env.x_bearer_token && truthy env.x_api_key &&
      truthy env.x_api_secret && truthy env.x_access_token &&
      truthy env.x_access_secret) = false by simp [hb]]
    subst hm
    simp [xCredNames]
  · obtain ⟨hb, hm⟩ := mem_if_singleton hn
    rw [show (truthy env.x_bearer_token && truthy env.x_api_key &&
      truthy env.x_api_secret && truthy env.x_access_token &&
      truthy env.x_access_secret) = false by simp [hb]]
    subst hm
    simp [xCredNames]
  · obtain ⟨hb, hm⟩ := mem_if_singleton hn
    rw [show (truthy env.x_bearer_token && truthy env.x_api_key &&
      truthy env.x_api_secret && truthy env.x_access_token &&
      truthy env.x_access_secret) = false by simp [hb]]
    subst hm
    simp [xCredNames]

lemma missing_nil_of_absent_nil {env : EnvConfig}
    (h : absent_required env = []) : missing_vars env = [] := by
  simp only [absent_required, List.append_eq_nil] at h
  obtain ⟨⟨⟨⟨⟨h0, h1⟩, h2⟩, h3⟩, h4⟩, h5⟩ := h
  unfold missing_vars
  rw [if_nil_true h0, if_nil_true h1, if_nil_true h2, if_nil_true h3,
    if_nil_true h4, if_nil_true h5]
  simp

lemma if_nil_true_of_ne {l : List (List Char)} {b : Bool} (hne : l ≠ [])
    (h : (if b then ([] : List (List Char)) else l) = []) : b = true := by
  cases b
  · simp only [Bool.false_eq_true, if_false] at h
    exact absurd h hne
  · rfl

lemma absent_nonempty_missing_nonempty {env : EnvConfig}
    (h : absent_required env ≠ []) : missing_vars env ≠ [] := by
  intro hm
  apply h
  simp only [missing_vars, List.append_eq_nil] at hm
  obtain ⟨h0, hrest⟩ := hm
  have hchain := if_nil_true_of_ne (by simp [xCredNames]) hrest
  have hb := if_nil_true h0
  simp only [Bool.and_eq_true] at hchain
  obtain ⟨⟨⟨⟨h1, h2⟩, h3⟩, h4⟩, h5⟩ := hchain
  unfold absent_required
  rw [hb, h1, h2, h3, h4, h5]
  simp

/-- C6: if any required credential is absent, the configuration check raises
an error whose payload includes every absent credential name, and `main`
stops there (no mode function, hence no network call, is reached); if all
required credentials are present the check raises nothing. -/
theorem claim_C6 (env : EnvConfig) (argv : List (List Char)) :
    (absent_required env ≠ [] →
      ∃ m, ensure_env env = Except.error m ∧
        (∀ n ∈ absent_required env, n ∈ m) ∧
        main_start env argv = RunStart.configError m) ∧
    (absent_required env = [] → ensure_env env = Except.ok ()) := by
  constructor
  · intro h
    have hm := absent_nonempty_missing_nonempty h
    refine ⟨missing_vars env, ?_, mem_missing_of_absent env, ?_⟩
    · unfold ensure_env
      rw [if_neg hm]
    · unfold main_start
      rw [show ensure_env env = Except.error (missing_vars env) by
        unfold ensure_env; rw [if_neg hm]]
  · intro h
    unfold ensure_env
    rw [if_pos (missing_nil_of_absent_nil h)]

/-- A fully-populated environment. -/
def envFull : EnvConfig :=
  ⟨some (str "k"), some (str "b"), some (str "ck"), some (str "cs"),
    some (str "at"), some (str "as")⟩

/-- An environment with every variable unset. -/
def envEmpty : EnvConfig := ⟨none, none, none, none, none, none⟩

theorem claim_C6_witness :
    (∃ m, ensure_env envEmpty = Except.error m ∧
      (∀ n ∈ absent_required envEmpty, n ∈ m) ∧
      main_start envEmpty [str "bot.py", str "1"] = RunStart.configError m) ∧
    ensure_env envFull = Except.ok () :=
  ⟨(claim_C6 envEmpty [str "bot.py", str "1"]).1 (by decide),
    (claim_C6 envFull []).2 (by decide)⟩

/-- Lowercasing of `str(e).lower()` (ASCII letters, which covers the
duplicate-content marker). -/
def lower (s : List Char) : List Char := s.map Char.toLower

/-- Python's substring test `needle in hay`. -/
def containsSub (needle hay : List Char) : Bool :=
  (List.range (hay.length + 1)).any (fun i => needle.isPrefixOf (hay.drop i))

/-- Outcome of `client.create_tweet` as seen by the `try` block in `tweet`
(bot.py lines 97-106): success, a `tweepy.errors.Forbidden` carrying its
message, or any other exception. -/
inductive PublishResponse where
  | success
  | forbidden (msg : List Char)
  | otherError (msg : List Char)
deriving DecidableEq, Repr

/-- What `tweet` does with the platform call's outcome: post sent, duplicate
skip logged, other-403 skip logged, or the exception propagating out. -/
inductive PublishOutcome where
  | sent
  | skippedDuplicate
  | skippedForbidden
  | raised (msg : List Char)
deriving DecidableEq, Repr

/-- The exception handling of `tweet` (bot.py lines 97-106): only
`Forbidden` is caught; within it, a lowercased message containing
`"duplicate"` is logged as a duplicate skip, any other `Forbidden` is logged
with detail; everything else propagates. -/
def tweet_handle (r : PublishResponse) : PublishOutcome :=
  match r with
  | PublishResponse.success => PublishOutcome.sent
  | PublishResponse.forbidden m =>
      if containsSub (str "duplicate") (lower m) then PublishOutcome.skippedDuplicate
      else PublishOutcome.skippedForbidden
  | PublishResponse.otherError m => PublishOutcome.raised m

/-- C7: the publish operation's exception behaviour is exactly three-way:
a forbidden error whose message contains the duplicate marker becomes a
logged duplicate skip, any other forbidden error becomes a logged skip
(neither lets an exception escape), and every other exception propagates
unhandled. -/
theorem claim_C7 (m e : List Char) :
    (containsSub (str "duplicate") (lower m) = true →
      tweet_handle (PublishResponse.forbidden m) = PublishOutcome.skippedDuplicate) ∧
    (containsSub (str "duplicate") (lower m) = false →
      tweet_handle (PublishResponse.forbidden m) = PublishOutcome.skippedForbidden) ∧
    (∀ x, tweet_handle (PublishResponse.forbidden m) ≠ PublishOutcome.raised x) ∧
    tweet_handle (PublishResponse.otherError e) = PublishOutcome.raised e := by
  have hdef : tweet_handle (PublishResponse.forbidden m) =
      if containsSub (str "duplicate") (lower m) then PublishOutcome.skippedDuplicate
      else PublishOutcome.skippedForbidden := rfl
  refine ⟨?_, ?_, ?_, rfl⟩
  · intro h
    rw [hdef, if_pos h]
  · intro h
    rw [hdef, if_neg (by rw [h]; exact Bool.false_ne_true)]
  · intro x
    rw [hdef]
    by_cases h : containsSub (str "duplicate") (lower m) = true
    · rw [if_pos h]
      exact fun hc => by cases hc
    · rw [if_neg h]
      exact fun hc => by cases hc

theorem claim_C7_witness :
    tweet_handle (PublishResponse.forbidden
      (str "Forbidden: duplicate content detected")) =
        PublishOutcome.skippedDuplicate ∧
    tweet_handle (PublishResponse.forbidden (str "Forbidden: not allowed")) =
      PublishOutcome.skippedForbidden ∧
    tweet_handle (PublishResponse.otherError (str "ConnectionError")) =
      PublishOutcome.raised (str "ConnectionError") :=
  ⟨(claim_C7 (str "Forbidden: duplicate content detected") []).1 (by decide),
    (claim_C7 (str "Forbidden: not allowed") []).2.1 (by decide),
    (claim_C7 [] (str "ConnectionError")).2.2.2⟩

/-- CPython `f"{v:.1f}"` for the nonnegative ratings the bot prints: scale to
tenths and round, i.e. `⌊10q + 1/2⌋`, written as the integer floor division
`(20·num + den) fdiv (2·den)`. (Here ties round up; CPython formats the
nearest double with ties-to-even, which agrees at every value whose tenths
position is not an exact tie — e.g. every one-decimal rating TMDB serves.) -/
def fmt1 (q : ℚ) : List Char :=
  let n : ℤ := Int.fdiv (20 * q.num + (q.den : ℤ)) (2 * (q.den : ℤ))
  let m : ℕ := n.toNat
  Nat.toDigits 10 (m / 10) ++ ('.' :: Nat.toDigits 10 (m % 10))

/-- The mode-1 message template (bot.py lines 127-139): year is the first 4
characters of the release date, rating is formatted to one decimal. -/
def render_mode_1 (movie : MovieResult) : List Char :=
  str "🎬 Bugün Türkiye\x27de en popüler film:\n" ++ movie.title ++ str " (" ++
    (movie.release_date.getD []).take 4 ++ str ") – ⭐ " ++
    fmt1 (voteAverage movie) ++ str "\n\n" ++
    shorten (movie.overview.getD []) 150 ++ str "\n\nDaha fazla: " ++
    str "https://tmdb.org/movie/" ++ Nat.toDigits 10 movie.id ++
    str "\n#film #sinema #tmdb"

/-- The mode-3 message template (bot.py lines 201-213): unlike the other
modes, it interpolates `date_str`, the FULL release-date string, not its
first 4 characters. -/
def render_mode_3 (movie : MovieResult) : List Char :=
  str "🎟 Son günlerde vizyona gelen bir film:\n" ++ movie.title ++ str " (" ++
    movie.release_date.getD [] ++ str ") – ⭐ " ++ fmt1 (voteAverage movie) ++
    str "\n\n" ++ shorten (movie.overview.getD []) 150 ++ str "\n\nDetaylar: " ++
    str "https://www.themoviedb.org/movie/" ++ Nat.toDigits 10 movie.id ++
    str "\n#yenifilm #filmönerisi #tmdb"

/-- The mode-17 message template (bot.py lines 527-539). -/
def render_mode_17 (movie : MovieResult) : List Char :=
  str "💎 Bugünün gizli mücevher filmi:\n" ++ movie.title ++ str " (" ++
    (movie.release_date.getD []).take 4 ++ str ") – ⭐ " ++
    fmt1 (voteAverage movie) ++ str "\n\n" ++
    shorten (movie.overview.getD []) 160 ++ str "\n\nKeşfet: " ++
    str "https://www.themoviedb.org/movie/" ++ Nat.toDigits 10 movie.id ++
    str "\n#gizlifilm #filmönerisi #tmdb"

/-- The candidate of the claim's scenario: title "Test Movie", release date
"2024-03-15", average rating 8.2, 500 votes, poster "/x.jpg". -/
def testMovie : MovieResult :=
  ⟨77, str "Test Movie", some (str "2024-03-15"),
    some (⟨41, 5, by decide, by decide⟩ : ℚ), some 500,
    some 10, some (str "/x.jpg"), some (str "An overview.")⟩

/-- C8 counterexample: mode 3 renders the scenario candidate with the FULL
release-date string, so its message does not contain "Test Movie (2024)"
(it contains "Test Movie (2024-03-15)" instead), refuting the claim that
every mode displays the year as the first 4 characters of the release
date. -/
theorem claim_C8_counterexample :
    containsSub (str "Test Movie (2024)") (render_mode_3 testMovie) = false ∧
    containsSub (str "Test Movie (2024-03-15)") (render_mode_3 testMovie) = true := by
  decide

/-- C8 (amended): every embedded mode template except mode 3 interpolates the
year as the first 4 characters of the release-date string together with the
rating formatted to one decimal place — mode 3 interpolates the full
release-date string instead; the claim's scenario holds for mode 1, whose
message contains "Test Movie (2024)" and "⭐ 8.2". -/
theorem claim_C8_amended (movie : MovieResult) :
    (∃ p q, render_mode_1 movie =
      p ++ (movie.title ++ str " (" ++ (movie.release_date.getD []).take 4 ++
        str ") – ⭐ " ++ fmt1 (voteAverage movie)) ++ q) ∧
    (∃ p q, render_mode_17 movie =
      p ++ (movie.title ++ str " (" ++ (movie.release_date.getD []).take 4 ++
        str ") – ⭐ " ++ fmt1 (voteAverage movie)) ++ q) ∧
    (∃ p q, render_mode_3 movie =
      p ++ (movie.title ++ str " (" ++ movie.release_date.getD [] ++
        str ") – ⭐ " ++ fmt1 (voteAverage movie)) ++ q) ∧
    containsSub (str "Test Movie (2024)") (render_mode_1 testMovie) = true ∧
    containsSub (str "⭐ 8.2") (render_mode_1 testMovie) = true := by
  refine ⟨?_, ?_, ?_, by decide, by decide⟩
  · refine ⟨str "🎬 Bugün Türkiye\x27de en popüler film:\n",
      str "\n\n" ++ shorten (movie.overview.getD []) 150 ++
        str "\n\nDaha fazla: " ++ str "https://tmdb.org/movie/" ++
        Nat.toDigits 10 movie.id ++ str "\n#film #sinema #tmdb", ?_⟩
    simp only [render_mode_1, List.append_assoc]
  · refine ⟨str "💎 Bugünün gizli mücevher filmi:\n",
      str "\n\n" ++ shorten (movie.overview.getD []) 160 ++
        str "\n\nKeşfet: " ++ str "https://www.themoviedb.org/movie/" ++
        Nat.toDigits 10 movie.id ++ str "\n#gizlifilm #filmönerisi #tmdb", ?_⟩
    simp only [render_mode_17, List.append_assoc]
  · refine ⟨str "🎟 Son günlerde vizyona gelen bir film:\n",
      str "\n\n" ++ shorten (movie.overview.getD []) 150 ++
        str "\n\nDetaylar: " ++ str "https://www.themoviedb.org/movie/" ++
        Nat.toDigits 10 movie.id ++ str "\n#yenifilm #filmönerisi #tmdb", ?_⟩
    simp only [render_mode_3, List.append_assoc]

/-- How one mode run can end: a message handed to `tweet`, an early return
with no candidate, or the `IndexError` `random.choice` raises on an empty
list (never reached on the embedded paths). -/
inductive ModeOutcome where
  | posted (msg : List Char)
  | noCandidate
  | choiceError
deriving DecidableEq, Repr

/-- `random.choice(l)`: one element of `l`, here the draw at index
`k % l.length`; `none` models the `IndexError` on an empty list. -/
def random_choice (l : List MovieResult) (k : ℕ) : Option MovieResult :=
  l.get? (k % l.length)

/-- Python `a or b` on result lists: `b` when `a` is empty (or absent). -/
def orNonempty (a b : List MovieResult) : List MovieResult :=
  if a.isEmpty then b else a

/-- `mode_3_new_release_today()` (bot.py lines 173-214) as a function of the
two query responses: pick from the 7-day discover results, else from the
trending fallback, else skip the tweet. -/
def run_mode_3 (discover_results trending_results : List MovieResult) : ModeOutcome :=
  match pick_best_result discover_results 1 with
  | some movie => ModeOutcome.posted (render_mode_3 movie)
  | none =>
      match pick_best_result trending_results 1 with
      | some movie => ModeOutcome.posted (render_mode_3 movie)
      | none => ModeOutcome.noCandidate

/-- `mode_17_hidden_gem()` (bot.py lines 486-540) as a function of the strict
query response, the relaxed query response, the random-page response and the
random draw: empty strict results trigger the relaxation; empty relaxed
results skip the tweet; otherwise one random item of the random page's
results (falling back to the first page's results) is posted. -/
def run_mode_17 (first_results relaxed_results page_results : List MovieResult)
    (pick : ℕ) : ModeOutcome :=
  if first_results.isEmpty then
    if relaxed_results.isEmpty then ModeOutcome.noCandidate
    else
      match random_choice (orNonempty page_results relaxed_results) pick with
      | some movie => ModeOutcome.posted (render_mode_17 movie)
      | none => ModeOutcome.choiceError
  else
    match random_choice (orNonempty page_results first_results) pick with
    | some movie => ModeOutcome.posted (render_mode_17 movie)
    | none => ModeOutcome.choiceError

/-- `mode_1_turkey_popular_today()` (bot.py lines 114-140) as a function of
its single query response. -/
def run_mode_1 (results : List MovieResult) : ModeOutcome :=
  match pick_best_result results 50 with
  | some movie => ModeOutcome.posted (render_mode_1 movie)
  | none => ModeOutcome.noCandidate

/-- C9: when the metadata queries return zero items at every stage
(including the relaxation stage of mode 17 and the trending fallback of
mode 3), the run ends with exactly the no-candidate outcome: nothing is
posted (so `tweet` and with it the publishing platform is never reached)
and no error outcome arises — the embedded mode bodies are total functions,
so no exception is raised. -/
theorem claim_C9 :
    run_mode_3 [] [] = ModeOutcome.noCandidate ∧
    (∀ page_results pick,
      run_mode_17 [] [] page_results pick = ModeOutcome.noCandidate) ∧
    run_mode_1 [] = ModeOutcome.noCandidate :=
  ⟨rfl, fun _ _ => rfl, rfl⟩

end Bot
